import Mathlib

/-!
# Page behaviour script of the Starlink DIY website (`website/script.js`)

A shallow embedding of the event handlers of `script.js`.  DOM nodes are
records holding just the attributes a handler reads or writes, a `classList`
is a list of tokens, pixel quantities are integers and times are natural
numbers of milliseconds.  Every handler is a pure function from the state it
touches to the state it leaves behind.
-/

namespace StarlinkDIY

/-! ## DOM token lists (`element.classList`) -/

/-- The call `classList.contains(tok)`. -/
def classContains (cl : List String) (tok : String) : Bool :=
  decide (tok ∈ cl)

/-- The call `classList.remove(tok)`: every occurrence of the token goes. -/
def classRemove (cl : List String) (tok : String) : List String :=
  cl.filter (fun c => decide (c ≠ tok))

/-- The call `classList.add(tok)`: the token is appended unless present. -/
def classAdd (cl : List String) (tok : String) : List String :=
  if tok ∈ cl then cl else cl ++ [tok]

/-- The call `classList.toggle(tok)`: removes a present token, adds an absent one. -/
def classToggle (cl : List String) (tok : String) : List String :=
  if tok ∈ cl then classRemove cl tok else classAdd cl tok

/-! ## Navigation toggle (script.js lines 4-34) -/

/-- Inline style of one indicator line of the toggle button; the empty string
is a property that no script has written yet. -/
structure Span where
  transform : String
  opacity : String
deriving DecidableEq

/-- The part of the page the toggle handler touches: the class list of
`#navMenu` and the inline styles of `spans[0]`, `spans[1]`, `spans[2]` of
`#navToggle` (the button of the page has three spans). -/
structure NavState where
  menuClasses : List String
  span0 : Span
  span1 : Span
  span2 : Span
deriving DecidableEq

/-- The click listener of `navToggle` (lines 9-23). -/
def navToggleClick (s : NavState) : NavState :=
  let menu := classToggle s.menuClasses "active"
  if classContains menu "active" then
    { menuClasses := menu
      span0 := { s.span0 with transform := "rotate(45deg) translate(5px, 5px)" }
      span1 := { s.span1 with opacity := "0" }
      span2 := { s.span2 with transform := "rotate(-45deg) translate(7px, -6px)" } }
  else
    { menuClasses := menu
      span0 := { s.span0 with transform := "none" }
      span1 := { s.span1 with opacity := "1" }
      span2 := { s.span2 with transform := "none" } }

/-- The state after `n` successive activations of the toggle. -/
def navToggleClicks : Nat → NavState → NavState
  | 0, s => s
  | n + 1, s => navToggleClick (navToggleClicks n s)

/-- The page as loaded: menu closed, no inline style written on the spans. -/
def navInitial : NavState :=
  { menuClasses := ["nav-menu"]
    span0 := ⟨"", ""⟩
    span1 := ⟨"", ""⟩
    span2 := ⟨"", ""⟩ }

/-! ## Navbar scroll effect (script.js lines 39-53) -/

/-- The first scroll listener (lines 42-53) applied to the class list of
`#navbar`, with `window.pageYOffset = currentScroll`. -/
def navbarScroll (currentScroll : Int) (navbarClasses : List String) : List String :=
  if currentScroll > 50 then classAdd navbarClasses "scrolled"
  else classRemove navbarClasses "scrolled"

/-! ## Smooth scrolling for anchor links (script.js lines 58-78) -/

/-- The `length` of a JavaScript string: the number of UTF-16 code units. -/
def jsLength (s : String) : Nat :=
  (s.toList.map (fun c => if c.toNat < 65536 then 1 else 2)).sum

/-- What `document.querySelector(href)` does: it returns an element (of which
the handler reads `offsetTop`), returns `null`, or throws a `SyntaxError` when
the string is not a valid selector. -/
inductive QueryResult where
  | found (offsetTop : Int)
  | null
  | syntaxError
deriving DecidableEq

/-- The argument of `window.scrollTo`. -/
structure ScrollToOptions where
  top : Int
  behavior : String
deriving DecidableEq

/-- What one run of the anchor click listener leaves behind: whether
`e.preventDefault()` was called and the scroll request made, if any. -/
structure ClickOutcome where
  defaultPrevented : Bool
  scrollTo : Option ScrollToOptions
deriving DecidableEq

/-- The click listener of an anchor (lines 59-77); `href` is the value of
`this.getAttribute('href')`.  A `SyntaxError` thrown by `querySelector` ends
the listener after `preventDefault` has been called. -/
def anchorClick (querySelector : String → QueryResult) (navbarOffsetHeight : Int)
    (href : String) : ClickOutcome :=
  if href ≠ "#" ∧ jsLength href > 1 then
    match querySelector href with
    | QueryResult.found offsetTop =>
      let navbarHeight := navbarOffsetHeight
      let targetPosition := offsetTop - navbarHeight
      { defaultPrevented := true, scrollTo := some { top := targetPosition, behavior := "smooth" } }
    | QueryResult.null => { defaultPrevented := true, scrollTo := none }
    | QueryResult.syntaxError => { defaultPrevented := true, scrollTo := none }
  else
    { defaultPrevented := false, scrollTo := none }

/-! ## Copy to clipboard (script.js lines 83-133) -/

/-- The attributes of a copy button the listener writes. -/
structure CopyButton where
  innerHTML : String
  color : String
deriving DecidableEq

/-- A pending `setTimeout` callback of the copy listener: it restores the
captured `originalHTML` once the clock reaches `due`. -/
structure RestoreTimer where
  due : Nat
  originalHTML : String
deriving DecidableEq

/-- One copy button together with its pending restore timers. -/
structure CopyWorld where
  button : CopyButton
  timers : List RestoreTimer
deriving DecidableEq

/-- How the clipboard write of one activation ends: the promise resolves, or
it rejects and the fallback runs, in which `execCommand` may throw. -/
inductive ClipboardOutcome where
  | resolved
  | rejected (execCommandThrows : Bool)
deriving DecidableEq

/-- The markup written into the button on success (lines 94-98). -/
def confirmationHTML : String :=
  "\n                <svg width=\"16\" height=\"16\" viewBox=\"0 0 16 16\" fill=\"none\">\n                    <path d=\"M13.5 3.5L5.5 11.5L2 8\" stroke=\"currentColor\" stroke-width=\"2\" stroke-linecap=\"round\" stroke-linejoin=\"round\"/>\n                </svg>\n            "

/-- The part of the click listener of a copy button that runs once the
clipboard write has settled, at time `now` (lines 92-130). -/
def copySettled (outcome : ClipboardOutcome) (now : Nat) (w : CopyWorld) : CopyWorld :=
  match outcome with
  | ClipboardOutcome.resolved =>
    let originalHTML := w.button.innerHTML
    { button := { innerHTML := confirmationHTML, color := "var(--success-color)" }
      timers := w.timers ++ [{ due := now + 2000, originalHTML := originalHTML }] }
  | ClipboardOutcome.rejected false =>
    let originalHTML := w.button.innerHTML
    { button := { innerHTML := "‚úì", color := "var(--success-color)" }
      timers := w.timers ++ [{ due := now + 2000, originalHTML := originalHTML }] }
  | ClipboardOutcome.rejected true => w

/-- The callback passed to `setTimeout` (lines 101-104 and 122-125). -/
def restoreButton (_b : CopyButton) (t : RestoreTimer) : CopyButton :=
  { innerHTML := t.originalHTML, color := "" }

/-- The clock reaches `now`: every timer that is due has run, in the order in
which the timers were set, and is gone from the timer table. -/
def copyAdvance (now : Nat) (w : CopyWorld) : CopyWorld :=
  { button := (w.timers.filter (fun t => decide (t.due ≤ now))).foldl restoreButton w.button
    timers := w.timers.filter (fun t => !decide (t.due ≤ now)) }

/-! ## Active navigation link highlighting (script.js lines 164-185) -/

/-- A `section[id]` element: the layout values and the attribute read. -/
structure PageSection where
  offsetTop : Int
  offsetHeight : Int
  id : String
deriving DecidableEq

/-- A `.nav-link` element; `href` is `getAttribute('href')`, `none` for `null`. -/
structure NavLink where
  href : Option String
  classList : List String
deriving DecidableEq

/-- The test of line 174 for one section, with `sectionTop` and
`sectionHeight` as on lines 170-171. -/
def sectionMatches (scrollPosition : Int) (s : PageSection) : Bool :=
  let sectionTop := s.offsetTop - 100
  let sectionHeight := s.offsetHeight
  decide (scrollPosition ≥ sectionTop) && decide (scrollPosition < sectionTop + sectionHeight)

/-- The inner `navLinks.forEach` (lines 175-180) for one section id. -/
def markLinks (sectionId : String) (links : List NavLink) : List NavLink :=
  links.map fun link =>
    let cleared := classRemove link.classList "active"
    if link.href = some ("#" ++ sectionId) then
      { link with classList := classAdd cleared "active" }
    else
      { link with classList := cleared }

/-- The function `highlightNavigation` (lines 166-183), with
`window.pageYOffset = scrollPosition`. -/
def highlightNavigation (sections : List PageSection) (scrollPosition : Int)
    (links : List NavLink) : List NavLink :=
  sections.foldl
    (fun ls s => if sectionMatches scrollPosition s then markLinks s.id ls else ls) links

/-- Whether a link carries the `active` class. -/
def isActive (link : NavLink) : Bool :=
  classContains link.classList "active"

/-- The last section, in iteration order, that matches the offset. -/
def lastMatching (sections : List PageSection) (scrollPosition : Int) : Option PageSection :=
  (sections.filter (sectionMatches scrollPosition)).getLast?

/-! ## Focus containment (script.js lines 243-266) -/

/-- The fields of a `keydown` event the listeners read. -/
structure KeyEvent where
  key : String
  shiftKey : Bool
deriving DecidableEq

/-- What the focus listener leaves behind: `document.activeElement` (`none`
for `null`) and whether `e.preventDefault()` was called. -/
structure FocusOutcome where
  activeElement : Option Nat
  defaultPrevented : Bool
deriving DecidableEq

/-- The element `modal.querySelectorAll(focusableElements)[0]` (line 247);
`none` is `undefined`.  Nodes are named by numbers. -/
def firstFocusableElement (focusableContent : List Nat) : Option Nat :=
  focusableContent[0]?

/-- The element `focusableContent[focusableContent.length - 1]` (line 249). -/
def lastFocusableElement (focusableContent : List Nat) : Option Nat :=
  focusableContent[focusableContent.length - 1]?

/-- Strict equality `document.activeElement === el`, where the left side is a
node or `null` and the right side a node or `undefined`. -/
def sameNode (activeElement el : Option Nat) : Bool :=
  match activeElement, el with
  | some a, some b => decide (a = b)
  | _, _ => false

/-- The `keydown` listener of lines 251-265; `el.focus()` makes `el` the
active element. -/
def focusTrapKeydown (focusableContent : List Nat) (modalClasses : List String)
    (e : KeyEvent) (activeElement : Option Nat) : FocusOutcome :=
  if e.key = "Tab" ∧ classContains modalClasses "active" = true then
    if e.shiftKey then
      if sameNode activeElement (firstFocusableElement focusableContent) then
        { activeElement := lastFocusableElement focusableContent, defaultPrevented := true }
      else
        { activeElement := activeElement, defaultPrevented := false }
    else
      if sameNode activeElement (lastFocusableElement focusableContent) then
        { activeElement := firstFocusableElement focusableContent, defaultPrevented := true }
      else
        { activeElement := activeElement, defaultPrevented := false }
  else
    { activeElement := activeElement, defaultPrevented := false }

/-! ## Debounce (script.js lines 272-289) -/

/-- An entry of the timer table made by `setTimeout(later, wait)`: the handle
returned, the time at which `later` runs, and the receiver and arguments the
closure `later` has captured. -/
structure DebounceTimer (α : Type) where
  handle : Nat
  due : Nat
  args : α

/-- The wrapper returned by `debounce` in its environment: the clock, the
state `func` works on, the closure variable `timeout` (`none` for `undefined`
and `null`), the pending timers and the next handle `setTimeout` returns. -/
structure Debounced (σ α : Type) where
  now : Nat
  state : σ
  timeout : Option Nat
  timers : List (DebounceTimer α)
  nextHandle : Nat

/-- The wrapper right after `debounce(func, wait, immediate)` has returned;
timer handles are positive integers. -/
def debounceInit {σ α : Type} (s : σ) : Debounced σ α :=
  { now := 0, state := s, timeout := none, timers := [], nextHandle := 1 }

/-- The value of `!timeout`. -/
def timeoutFalsy (timeout : Option Nat) : Bool :=
  match timeout with
  | none => true
  | some 0 => true
  | some (_ + 1) => false

/-- The call `clearTimeout(timeout)`. -/
def clearTimeout {α : Type} (timeout : Option Nat) (timers : List (DebounceTimer α)) :
    List (DebounceTimer α) :=
  match timeout with
  | none => timers
  | some h => timers.filter (fun t => decide (t.handle ≠ h))

/-- The closure `later` (lines 276-279) run for the timer `t`. -/
def later {σ α : Type} (func : α → σ → σ) (immediate : Bool) (d : Debounced σ α)
    (t : DebounceTimer α) : Debounced σ α :=
  let d1 := { d with timeout := none }
  if !immediate then { d1 with state := func t.args d1.state } else d1

/-- The clock reaches `now`: every timer that is due runs `later` and leaves
the timer table. -/
def debounceAdvance {σ α : Type} (func : α → σ → σ) (immediate : Bool) (now : Nat)
    (d : Debounced σ α) : Debounced σ α :=
  (d.timers.filter (fun t => decide (t.due ≤ now))).foldl (later func immediate)
    { d with now := now, timers := d.timers.filter (fun t => !decide (t.due ≤ now)) }

/-- One call of the wrapper (lines 274-284) with receiver and arguments `a`,
at the time `d.now`. -/
def debouncedCall {σ α : Type} (func : α → σ → σ) (wait : Nat) (immediate : Bool) (a : α)
    (d : Debounced σ α) : Debounced σ α :=
  let callNow := immediate && timeoutFalsy d.timeout
  let cleared := clearTimeout d.timeout d.timers
  let d1 : Debounced σ α :=
    { d with
      timeout := some d.nextHandle
      timers := cleared ++ [{ handle := d.nextHandle, due := d.now + wait, args := a }]
      nextHandle := d.nextHandle + 1 }
  if callNow then { d1 with state := func a d1.state } else d1

/-- A call of the wrapper `gap` milliseconds after the previous event: the
timers due by then run first, then the wrapper. -/
def debounceStep {σ α : Type} (func : α → σ → σ) (wait : Nat) (immediate : Bool)
    (d : Debounced σ α) (ev : Nat × α) : Debounced σ α :=
  debouncedCall func wait immediate ev.2 (debounceAdvance func immediate (d.now + ev.1) d)

/-- A timed sequence of calls of the wrapper, each given with the time that
has passed since the previous one. -/
def debounceRun {σ α : Type} (func : α → σ → σ) (wait : Nat) (immediate : Bool)
    (d : Debounced σ α) (evs : List (Nat × α)) : Debounced σ α :=
  evs.foldl (debounceStep func wait immediate) d

/-! ## The scroll listeners of the highlighter (script.js lines 185 and 288-289) -/

/-- The page as the highlighter sees it, with a counter of the executions of
`highlightNavigation`. -/
structure ScrollPage where
  pageYOffset : Int
  links : List NavLink
  highlightRuns : Nat
deriving DecidableEq

/-- One execution of `highlightNavigation` on the page. -/
def runHighlight (sections : List PageSection) (p : ScrollPage) : ScrollPage :=
  { p with
    links := highlightNavigation sections p.pageYOffset p.links
    highlightRuns := p.highlightRuns + 1 }

/-- One `scroll` event, `ev.1` milliseconds after the previous one, at offset
`ev.2`: the listener registered on line 185 runs `highlightNavigation`, then
the listener registered on line 289 calls `debouncedHighlightNav`, which is
`debounce(highlightNavigation, 10)` with `immediate` left at `true`.  The
navbar and parallax listeners touch neither the links nor the wrapper. -/
def scrollEvent (sections : List PageSection) (d : Debounced ScrollPage Unit)
    (ev : Nat × Int) : Debounced ScrollPage Unit :=
  let d1 := debounceAdvance (fun _ => runHighlight sections) true (d.now + ev.1) d
  let d2 := { d1 with state := { d1.state with pageYOffset := ev.2 } }
  let d3 := { d2 with state := runHighlight sections d2.state }
  debouncedCall (fun _ => runHighlight sections) 10 true () d3

/-- A sequence of `scroll` events from the loaded page. -/
def scrollRun (sections : List PageSection) (links : List NavLink) (evs : List (Nat × Int)) :
    Debounced ScrollPage Unit :=
  evs.foldl (scrollEvent sections)
    (debounceInit { pageYOffset := 0, links := links, highlightRuns := 0 })

/-! ## Konami code (script.js lines 294-314) -/

/-- The constant `konamiPattern` (line 295). -/
def konamiPattern : List String :=
  ["ArrowUp", "ArrowUp", "ArrowDown", "ArrowDown", "ArrowLeft", "ArrowRight", "ArrowLeft",
    "ArrowRight", "b", "a"]

/-- The method `toLowerCase` on the letters A to Z; other characters are kept. -/
def toLowerCase (s : String) : String :=
  String.mk (s.toList.map Char.toLower)

/-- The normalised key of line 299. -/
def normalizeKey (key : String) : String :=
  if jsLength key = 1 then toLowerCase key else key

/-- The call `arr.slice(-n)`: the last `n` entries, all of them if fewer. -/
def sliceLast (n : Nat) (arr : List String) : List String :=
  arr.drop (arr.length - n)

/-- The call `arr.join(',')`. -/
def joinComma : List String → String
  | [] => ""
  | [x] => x
  | x :: y :: rest => x ++ "," ++ joinComma (y :: rest)

/-- The `keydown` listener of lines 297-314 on the buffer `konamiCode`: the
new buffer, and whether the branch of line 303 that speeds the satellite up
was entered. -/
def konamiKeydown (konamiCode : List String) (eKey : String) : List String × Bool :=
  let key := normalizeKey eKey
  let pushed := konamiCode ++ [key]
  let sliced := sliceLast konamiPattern.length pushed
  (sliced, decide (joinComma sliced = joinComma konamiPattern))

/-- A sequence of key presses: the final buffer, and whether the last key
pressed activated the speed boost. -/
def konamiFeed (konamiCode : List String) (keys : List String) : List String × Bool :=
  keys.foldl (fun st k => konamiKeydown st.1 k) (konamiCode, false)

/-! ## Theorems -/

/-! ### Token lists -/

theorem mem_classRemove (cl : List String) (tok c : String) :
    c ∈ classRemove cl tok ↔ c ∈ cl ∧ c ≠ tok := by
  simp [classRemove]

theorem mem_classAdd (cl : List String) (tok c : String) :
    c ∈ classAdd cl tok ↔ c ∈ cl ∨ c = tok := by
  unfold classAdd
  split
  · constructor
    · intro h; exact Or.inl h
    · rintro (h | h)
      · exact h
      · subst h; assumption
  · simp

theorem mem_classToggle_self (cl : List String) (tok : String) :
    tok ∈ classToggle cl tok ↔ tok ∉ cl := by
  unfold classToggle
  split
  · simp [mem_classRemove, *]
  · simp [mem_classAdd, *]

theorem mem_classToggle_other (cl : List String) (tok c : String) (h : c ≠ tok) :
    c ∈ classToggle cl tok ↔ c ∈ cl := by
  unfold classToggle
  split
  · simp [mem_classRemove, h]
  · simp [mem_classAdd, h]

/-! ### Navigation toggle -/

theorem navToggleClick_opens (s : NavState) (h : "active" ∉ s.menuClasses) :
    "active" ∈ (navToggleClick s).menuClasses ∧
      (navToggleClick s).span0 = { s.span0 with transform := "rotate(45deg) translate(5px, 5px)" } ∧
      (navToggleClick s).span1 = { s.span1 with opacity := "0" } ∧
      (navToggleClick s).span2 =
        { s.span2 with transform := "rotate(-45deg) translate(7px, -6px)" } := by
  have hm : "active" ∈ classToggle s.menuClasses "active" :=
    (mem_classToggle_self _ _).2 h
  simp [navToggleClick, classContains, hm]

theorem navToggleClick_closes (s : NavState) (h : "active" ∈ s.menuClasses) :
    "active" ∉ (navToggleClick s).menuClasses ∧
      (navToggleClick s).span0 = { s.span0 with transform := "none" } ∧
      (navToggleClick s).span1 = { s.span1 with opacity := "1" } ∧
      (navToggleClick s).span2 = { s.span2 with transform := "none" } := by
  have hm : "active" ∉ classToggle s.menuClasses "active" := by
    rw [mem_classToggle_self]; simpa using h
  simp [navToggleClick, classContains, hm]

theorem navToggleClick_other_class (s : NavState) (c : String) (hc : c ≠ "active") :
    c ∈ (navToggleClick s).menuClasses ↔ c ∈ s.menuClasses := by
  simp only [navToggleClick]
  split <;> simp [mem_classToggle_other _ _ _ hc]

theorem navToggleClick_untouched (s : NavState) :
    (navToggleClick s).span0.opacity = s.span0.opacity ∧
      (navToggleClick s).span1.transform = s.span1.transform ∧
      (navToggleClick s).span2.opacity = s.span2.opacity := by
  simp only [navToggleClick]
  split <;> simp

/-- C1 as stated fails: after two activations from the loaded page the menu is
closed again, but the indicator lines carry the inline values `none`, `1`,
`none`, which the loaded page, with no inline style written, does not. -/
theorem navToggle_two_clicks_differ_from_initial :
    "active" ∉ navInitial.menuClasses ∧
      "active" ∉ (navToggleClicks 2 navInitial).menuClasses ∧
      (navToggleClicks 2 navInitial).span0.transform = "none" ∧
      (navToggleClicks 2 navInitial).span0.transform ≠ navInitial.span0.transform ∧
      (navToggleClicks 2 navInitial).span1.opacity ≠ navInitial.span1.opacity ∧
      (navToggleClicks 2 navInitial).span2.transform ≠ navInitial.span2.transform := by
  decide

/-- C1, amended: from any state with the menu closed, after `n` activations of
the toggle the menu is open exactly when `n` is odd; for odd `n` the lines are
in the opened state, for even `n > 0` they carry the closed values `none`,
`1`, `none`, and for `n = 0` nothing has changed.  The other classes of the
menu and the other style properties of the spans are never touched. -/
theorem navToggleClicks_parity (s : NavState) (h : "active" ∉ s.menuClasses) (n : Nat) :
    (n % 2 = 1 →
      "active" ∈ (navToggleClicks n s).menuClasses ∧
        (navToggleClicks n s).span0.transform = "rotate(45deg) translate(5px, 5px)" ∧
        (navToggleClicks n s).span1.opacity = "0" ∧
        (navToggleClicks n s).span2.transform = "rotate(-45deg) translate(7px, -6px)") ∧
    (n % 2 = 0 → "active" ∉ (navToggleClicks n s).menuClasses) ∧
    (n % 2 = 0 → 0 < n →
      (navToggleClicks n s).span0.transform = "none" ∧
        (navToggleClicks n s).span1.opacity = "1" ∧
        (navToggleClicks n s).span2.transform = "none") ∧
    (n = 0 → navToggleClicks n s = s) ∧
    (∀ c, c ≠ "active" → (c ∈ (navToggleClicks n s).menuClasses ↔ c ∈ s.menuClasses)) ∧
    (navToggleClicks n s).span0.opacity = s.span0.opacity ∧
    (navToggleClicks n s).span1.transform = s.span1.transform ∧
    (navToggleClicks n s).span2.opacity = s.span2.opacity := by
  induction n with
  | zero => simp [navToggleClicks, h]
  | succ k ih =>
    obtain ⟨hodd, heven, _, _, hcls, ho0, ht1, ho2⟩ := ih
    have hu := navToggleClick_untouched (navToggleClicks k s)
    have hrest : (∀ c, c ≠ "active" →
          (c ∈ (navToggleClicks (k + 1) s).menuClasses ↔ c ∈ s.menuClasses)) ∧
        (navToggleClicks (k + 1) s).span0.opacity = s.span0.opacity ∧
        (navToggleClicks (k + 1) s).span1.transform = s.span1.transform ∧
        (navToggleClicks (k + 1) s).span2.opacity = s.span2.opacity := by
      refine ⟨fun c hc => ?_, ?_, ?_, ?_⟩
      · exact (navToggleClick_other_class _ c hc).trans (hcls c hc)
      · exact hu.1.trans ho0
      · exact hu.2.1.trans ht1
      · exact hu.2.2.trans ho2
    rcases Nat.mod_two_eq_zero_or_one k with hk | hk
    · have hk1 : (k + 1) % 2 = 1 := by omega
      obtain ⟨hm, h0, h1, h2⟩ := navToggleClick_opens _ (heven hk)
      refine ⟨fun _ => ⟨hm, ?_, ?_, ?_⟩, fun h0 => by omega, fun h0 => by omega,
        fun h0 => by omega, hrest⟩
      · show (navToggleClick (navToggleClicks k s)).span0.transform = _
        rw [h0]
      · show (navToggleClick (navToggleClicks k s)).span1.opacity = _
        rw [h1]
      · show (navToggleClick (navToggleClicks k s)).span2.transform = _
        rw [h2]
    · have hk1 : (k + 1) % 2 = 0 := by omega
      obtain ⟨hm, h0, h1, h2⟩ := navToggleClick_closes _ (hodd hk).1
      refine ⟨fun h0 => by omega, fun _ => hm, fun _ _ => ⟨?_, ?_, ?_⟩,
        fun h0 => by omega, hrest⟩
      · show (navToggleClick (navToggleClicks k s)).span0.transform = _
        rw [h0]
      · show (navToggleClick (navToggleClicks k s)).span1.opacity = _
        rw [h1]
      · show (navToggleClick (navToggleClicks k s)).span2.transform = _
        rw [h2]

/-- Witness of `navToggleClicks_parity`: three activations from the loaded page. -/
theorem navToggleClicks_parity_witness :
    "active" ∉ navInitial.menuClasses ∧
      "active" ∈ (navToggleClicks 3 navInitial).menuClasses ∧
      (navToggleClicks 3 navInitial).span1.opacity = "0" :=
  ⟨by decide,
    ((navToggleClicks_parity navInitial (by decide) 3).1 (by decide)).1,
    ((navToggleClicks_parity navInitial (by decide) 3).1 (by decide)).2.2.1⟩

/-! ### Navbar scroll effect -/

/-- C7 as stated fails at the threshold itself: at offset 50 the handler
removes the `scrolled` class, whether or not it was there. -/
theorem navbarScroll_at_50_not_scrolled :
    (50 : Int) ≥ 50 ∧ "scrolled" ∉ navbarScroll 50 ["navbar", "scrolled"] ∧
      "scrolled" ∉ navbarScroll 50 ["navbar"] := by
  decide

/-- C7, amended: after the navbar scroll handler has run at offset `y`, the
navbar carries the `scrolled` class if and only if `y > 50`, whatever its
classes were before; the other classes are kept. -/
theorem navbarScroll_scrolled_iff (y : Int) (navbarClasses : List String) :
    ("scrolled" ∈ navbarScroll y navbarClasses ↔ y > 50) ∧
      ∀ c, c ≠ "scrolled" → (c ∈ navbarScroll y navbarClasses ↔ c ∈ navbarClasses) := by
  unfold navbarScroll
  split
  · simp [mem_classAdd, *]
    intro c hc
    simp [hc]
  · simp [mem_classRemove, *]
    intro c hc
    simp [hc]

/-! ### Active navigation link highlighting -/

/-- C8 as stated fails: a section at top 500 of height 300 and the offset 750,
which lies in `[500 - 100, 500 + 300)`, is not treated as matching. -/
theorem sectionMatches_not_claimed_band :
    (500 : Int) - 100 ≤ 750 ∧ (750 : Int) < 500 + 300 ∧
      sectionMatches 750 { offsetTop := 500, offsetHeight := 300, id := "about" } = false := by
  decide

/-- C8, amended: `highlightNavigation` treats a section with `offsetTop` `T`
and `offsetHeight` `H` as matching the offset `y` if and only if
`T - 100 ≤ y < T - 100 + H`: the band is `[top - 100, top - 100 + height)`. -/
theorem sectionMatches_iff (y : Int) (s : PageSection) :
    sectionMatches y s = true ↔
      s.offsetTop - 100 ≤ y ∧ y < s.offsetTop - 100 + s.offsetHeight := by
  simp [sectionMatches]

theorem classRemove_classRemove (cl : List String) (tok : String) :
    classRemove (classRemove cl tok) tok = classRemove cl tok := by
  simp [classRemove, List.filter_filter]

theorem classRemove_classAdd (cl : List String) (tok : String) :
    classRemove (classAdd (classRemove cl tok) tok) tok = classRemove cl tok := by
  have hn : tok ∉ classRemove cl tok := by simp [mem_classRemove]
  simp only [classAdd, hn, if_false]
  simp [classRemove, List.filter_append, List.filter_filter]

theorem markLinks_markLinks (a b : String) (links : List NavLink) :
    markLinks b (markLinks a links) = markLinks b links := by
  simp only [markLinks, List.map_map]
  apply List.map_congr_left
  intro link _
  simp only [Function.comp]
  by_cases ha : link.href = some ("#" ++ a)
  · simp only [if_pos ha]
    by_cases hb : link.href = some ("#" ++ b)
    · simp only [if_pos hb, classRemove_classAdd]
    · simp only [if_neg hb, classRemove_classAdd]
  · simp only [if_neg ha]
    by_cases hb : link.href = some ("#" ++ b)
    · simp only [if_pos hb, classRemove_classRemove]
    · simp only [if_neg hb, classRemove_classRemove]

theorem lastMatching_append_singleton (sections : List PageSection) (s : PageSection) (y : Int) :
    lastMatching (sections ++ [s]) y =
      if sectionMatches y s then some s else lastMatching sections y := by
  unfold lastMatching
  by_cases h : sectionMatches y s = true
  · simp [List.filter_append, h, List.getLast?_append]
  · simp [List.filter_append, h]

/-- The links after `highlightNavigation`: untouched when no section matches,
and otherwise marked for the last matching section alone. -/
theorem highlightNavigation_eq (sections : List PageSection) (y : Int) (links : List NavLink) :
    highlightNavigation sections y links =
      match lastMatching sections y with
      | none => links
      | some s => markLinks s.id links := by
  induction sections using List.reverseRecOn with
  | nil => simp [highlightNavigation, lastMatching]
  | append_singleton init s ih =>
    have hstep : highlightNavigation (init ++ [s]) y links =
        if sectionMatches y s then markLinks s.id (highlightNavigation init y links)
        else highlightNavigation init y links := by
      simp [highlightNavigation, List.foldl_append]
    rw [hstep, lastMatching_append_singleton, ih]
    by_cases h : sectionMatches y s = true
    · simp only [h, if_true]
      cases lastMatching init y with
      | none => rfl
      | some s0 => exact markLinks_markLinks _ _ _
    · simp only [h]
      rfl

theorem lastMatching_isSome (sections : List PageSection) (y : Int)
    (h : ∃ s ∈ sections, sectionMatches y s = true) :
    ∃ s, lastMatching sections y = some s ∧ s ∈ sections ∧ sectionMatches y s = true := by
  obtain ⟨s0, hs0, hm0⟩ := h
  have hne : sections.filter (sectionMatches y) ≠ [] := by
    intro hnil
    have : s0 ∈ sections.filter (sectionMatches y) := List.mem_filter.2 ⟨hs0, hm0⟩
    rw [hnil] at this
    exact List.not_mem_nil _ this
  refine ⟨(sections.filter (sectionMatches y)).getLast hne, ?_, ?_, ?_⟩
  · unfold lastMatching
    exact List.getLast?_eq_getLast _ hne
  · exact (List.mem_filter.1 (List.getLast_mem hne)).1
  · exact (List.mem_filter.1 (List.getLast_mem hne)).2

theorem isActive_markLinks (sectionId : String) (links : List NavLink) :
    (markLinks sectionId links).map NavLink.href = links.map NavLink.href ∧
      (∀ l ∈ markLinks sectionId links,
        (isActive l = true ↔ l.href = some ("#" ++ sectionId))) ∧
      ((markLinks sectionId links).filter isActive).length =
        (links.filter (fun l => decide (l.href = some ("#" ++ sectionId)))).length := by
  have key : ∀ link : NavLink,
      isActive
          (if link.href = some ("#" ++ sectionId) then
            { link with classList := classAdd (classRemove link.classList "active") "active" }
          else { link with classList := classRemove link.classList "active" }) =
        decide (link.href = some ("#" ++ sectionId)) := by
    intro link
    by_cases h : link.href = some ("#" ++ sectionId)
    · simp [h, isActive, classContains, mem_classAdd]
    · simp [h, isActive, classContains, mem_classRemove]
  refine ⟨?_, ?_, ?_⟩
  · simp only [markLinks, List.map_map]
    apply List.map_congr_left
    intro link _
    simp only [Function.comp]
    split <;> rfl
  · intro l hl
    simp only [markLinks, List.mem_map] at hl
    obtain ⟨link, _, rfl⟩ := hl
    rw [key link]
    by_cases h : link.href = some ("#" ++ sectionId) <;> simp [h]
  · simp only [markLinks, List.filter_map, List.length_map]
    congr 1
    apply List.filter_congr
    intro link _
    simp only [Function.comp]
    exact key link

/-- C2 as stated fails: with one matching section `home`, a link list without
a link to `#home` ends with no active link, and a link list with two links to
`#home` ends with two active links. -/
theorem highlightNavigation_not_exactly_one :
    sectionMatches 0 { offsetTop := 0, offsetHeight := 600, id := "home" } = true ∧
      ((highlightNavigation [{ offsetTop := 0, offsetHeight := 600, id := "home" }] 0
        [{ href := some "#about", classList := ["nav-link", "active"] }]).filter
          isActive).length = 0 ∧
      ((highlightNavigation [{ offsetTop := 0, offsetHeight := 600, id := "home" }] 0
        [{ href := some "#home", classList := ["nav-link"] },
          { href := some "#home", classList := ["nav-link"] }]).filter isActive).length = 2 := by
  decide

/-- C2, amended: when the offset lies in the band of at least one section,
after `highlightNavigation` a navigation link carries the `active` class if
and only if its href is `#` followed by the id of the last section, in
iteration order, whose band contains the offset; so the number of active links
is the number of links with that href, and the hrefs are unchanged. -/
theorem highlightNavigation_active_iff (sections : List PageSection) (y : Int)
    (links : List NavLink) (h : ∃ s ∈ sections, sectionMatches y s = true) :
    ∃ s, lastMatching sections y = some s ∧ s ∈ sections ∧ sectionMatches y s = true ∧
      (highlightNavigation sections y links).map NavLink.href = links.map NavLink.href ∧
      (∀ l ∈ highlightNavigation sections y links,
        (isActive l = true ↔ l.href = some ("#" ++ s.id))) ∧
      ((highlightNavigation sections y links).filter isActive).length =
        (links.filter (fun l => decide (l.href = some ("#" ++ s.id)))).length := by
  obtain ⟨s, hs, hmem, hmatch⟩ := lastMatching_isSome sections y h
  refine ⟨s, hs, hmem, hmatch, ?_⟩
  rw [highlightNavigation_eq, hs]
  exact isActive_markLinks s.id links

/-- Witness of `highlightNavigation_active_iff`: two overlapping sections and
one link for each. -/
theorem highlightNavigation_active_iff_witness :
    ∃ s, lastMatching
        [{ offsetTop := 0, offsetHeight := 600, id := "home" },
          { offsetTop := 500, offsetHeight := 300, id := "about" }] 450 = some s ∧
      ((highlightNavigation
        [{ offsetTop := 0, offsetHeight := 600, id := "home" },
          { offsetTop := 500, offsetHeight := 300, id := "about" }] 450
        [{ href := some "#home", classList := ["nav-link", "active"] },
          { href := some "#about", classList := ["nav-link"] }]).filter isActive).length =
        ([{ href := some "#home", classList := ["nav-link", "active"] },
          { href := some "#about", classList := ["nav-link"] }].filter
            (fun l : NavLink => decide (l.href = some ("#" ++ s.id)))).length := by
  obtain ⟨s, hs, _, _, _, _, hcount⟩ :=
    highlightNavigation_active_iff
      [{ offsetTop := 0, offsetHeight := 600, id := "home" },
        { offsetTop := 500, offsetHeight := 300, id := "about" }] 450
      [{ href := some "#home", classList := ["nav-link", "active"] },
        { href := some "#about", classList := ["nav-link"] }]
      ⟨{ offsetTop := 0, offsetHeight := 600, id := "home" }, by decide, by decide⟩
  exact ⟨s, hs, hcount⟩

/-! ### Smooth scrolling for anchor links -/

/-- C3: for an href that starts with `#` and is longer than one code unit, the
click handler suppresses the default and, when `querySelector` finds an
element, requests a smooth scroll to `target.offsetTop - navbar.offsetHeight`;
when no element is found no scroll is requested.  For the bare href `#` the
handler neither suppresses the default nor scrolls. -/
theorem anchorClick_spec (querySelector : String → QueryResult) (navbarOffsetHeight : Int)
    (href : String) (_hstart : ∃ rest, href = "#" ++ rest) (hlen : 1 < jsLength href) :
    (∀ offsetTop, querySelector href = QueryResult.found offsetTop →
      anchorClick querySelector navbarOffsetHeight href =
        { defaultPrevented := true
          scrollTo := some { top := offsetTop - navbarOffsetHeight, behavior := "smooth" } }) ∧
    ((∀ offsetTop, querySelector href ≠ QueryResult.found offsetTop) →
      anchorClick querySelector navbarOffsetHeight href =
        { defaultPrevented := true, scrollTo := none }) ∧
    anchorClick querySelector navbarOffsetHeight "#" =
      { defaultPrevented := false, scrollTo := none } := by
  have hne : href ≠ "#" := by
    intro heq
    rw [heq] at hlen
    revert hlen
    decide
  have hguard : href ≠ "#" ∧ jsLength href > 1 := ⟨hne, hlen⟩
  refine ⟨?_, ?_, ?_⟩
  · intro offsetTop hq
    simp only [anchorClick, if_pos hguard, hq]
  · intro hq
    simp only [anchorClick, if_pos hguard]
    cases hres : querySelector href with
    | found offsetTop => exact absurd hres (hq offsetTop)
    | null => rfl
    | syntaxError => rfl
  · simp [anchorClick]

/-- Witness of `anchorClick_spec`: the link `#section-x` on a page whose
element `section-x` lies at offset 640, under a navbar 72 pixels high. -/
theorem anchorClick_spec_witness :
    (∃ rest, "#section-x" = "#" ++ rest) ∧ 1 < jsLength "#section-x" ∧
      anchorClick (fun sel => if sel = "#section-x" then QueryResult.found 640
        else QueryResult.null) 72 "#section-x" =
        { defaultPrevented := true, scrollTo := some { top := 568, behavior := "smooth" } } :=
  ⟨⟨"section-x", by decide⟩, by decide,
    (anchorClick_spec (fun sel => if sel = "#section-x" then QueryResult.found 640
      else QueryResult.null) 72 "#section-x" ⟨"section-x", by decide⟩ (by decide)).1 640
      (by decide)⟩

/-! ### Copy to clipboard -/

/-- C4: when the clipboard write of a single activation succeeds at time `t`
on a button with no restore pending, then `d` milliseconds later the button
shows the confirmation markup and the success colour if `d < 2000`, and its
original content with the inline colour cleared if `d ≥ 2000`. -/
theorem copySettled_timeline (b : CopyButton) (t d : Nat) :
    (copyAdvance (t + d)
        (copySettled ClipboardOutcome.resolved t { button := b, timers := [] })).button =
      if d < 2000 then { innerHTML := confirmationHTML, color := "var(--success-color)" }
      else { innerHTML := b.innerHTML, color := "" } := by
  by_cases h : d < 2000
  · have hdue : ¬ t + 2000 ≤ t + d := by omega
    simp [copyAdvance, copySettled, h, hdue]
  · have hdue : t + 2000 ≤ t + d := by omega
    simp [copyAdvance, copySettled, h, hdue, restoreButton]

/-! ### Focus containment -/

theorem firstFocusableElement_eq (focusableContent : List Nat) (hne : focusableContent ≠ []) :
    firstFocusableElement focusableContent = some (focusableContent.head hne) := by
  cases focusableContent with
  | nil => exact absurd rfl hne
  | cons a l => simp [firstFocusableElement]

theorem lastFocusableElement_eq (focusableContent : List Nat) (hne : focusableContent ≠ []) :
    lastFocusableElement focusableContent = some (focusableContent.getLast hne) := by
  unfold lastFocusableElement
  rw [← List.getLast?_eq_getElem?]
  exact List.getLast?_eq_getLast _ hne

theorem sameNode_some (activeElement : Option Nat) (n : Nat) :
    sameNode activeElement (some n) = true ↔ activeElement = some n := by
  cases activeElement with
  | none => simp [sameNode]
  | some a => simp [sameNode]

/-- C5: with a non-empty snapshot of focusable elements and the menu carrying
`active`, Shift+Tab on the first element moves the focus to the last, Tab on
the last moves it to the first, both with the default suppressed; in every
other case focus and default action are left as they were. -/
theorem focusTrapKeydown_spec (focusableContent : List Nat) (hne : focusableContent ≠ [])
    (modalClasses : List String) (e : KeyEvent) (activeElement : Option Nat) :
    ("active" ∈ modalClasses → e.key = "Tab" → e.shiftKey = true →
      activeElement = some (focusableContent.head hne) →
      focusTrapKeydown focusableContent modalClasses e activeElement =
        { activeElement := some (focusableContent.getLast hne), defaultPrevented := true }) ∧
    ("active" ∈ modalClasses → e.key = "Tab" → e.shiftKey = false →
      activeElement = some (focusableContent.getLast hne) →
      focusTrapKeydown focusableContent modalClasses e activeElement =
        { activeElement := some (focusableContent.head hne), defaultPrevented := true }) ∧
    (¬ ("active" ∈ modalClasses ∧ e.key = "Tab" ∧
        ((e.shiftKey = true ∧ activeElement = some (focusableContent.head hne)) ∨
          (e.shiftKey = false ∧ activeElement = some (focusableContent.getLast hne)))) →
      focusTrapKeydown focusableContent modalClasses e activeElement =
        { activeElement := activeElement, defaultPrevented := false }) := by
  have hfirst := firstFocusableElement_eq focusableContent hne
  have hlast := lastFocusableElement_eq focusableContent hne
  refine ⟨?_, ?_, ?_⟩
  · intro hact hkey hshift hfoc
    simp [focusTrapKeydown, classContains, hact, hkey, hshift, hfirst, hlast, sameNode_some, hfoc]
  · intro hact hkey hshift hfoc
    simp [focusTrapKeydown, classContains, hact, hkey, hshift, hfirst, hlast, sameNode_some, hfoc]
  · intro hnot
    unfold focusTrapKeydown
    rw [hfirst, hlast]
    by_cases hg : e.key = "Tab" ∧ classContains modalClasses "active" = true
    · rw [if_pos hg]
      have hact : "active" ∈ modalClasses := by simpa [classContains] using hg.2
      cases hs : e.shiftKey with
      | true =>
        have hf : ¬ activeElement = some (focusableContent.head hne) := fun hf =>
          hnot ⟨hact, hg.1, Or.inl ⟨hs, hf⟩⟩
        have : sameNode activeElement (some (focusableContent.head hne)) = false := by
          rw [← Bool.not_eq_true, sameNode_some]; exact hf
        simp [this]
      | false =>
        have hf : ¬ activeElement = some (focusableContent.getLast hne) := fun hf =>
          hnot ⟨hact, hg.1, Or.inr ⟨hs, hf⟩⟩
        have : sameNode activeElement (some (focusableContent.getLast hne)) = false := by
          rw [← Bool.not_eq_true, sameNode_some]; exact hf
        simp [this]
    · rw [if_neg hg]

/-- Witness of `focusTrapKeydown_spec`: a menu with the three focusable
elements 4, 5 and 6, open, focus on the last one, Tab pressed. -/
theorem focusTrapKeydown_spec_witness :
    ([4, 5, 6] : List Nat) ≠ [] ∧
      focusTrapKeydown [4, 5, 6] ["nav-menu", "active"] { key := "Tab", shiftKey := false }
        (some 6) = { activeElement := some 4, defaultPrevented := true } :=
  ⟨by decide,
    (focusTrapKeydown_spec [4, 5, 6] (by decide) ["nav-menu", "active"]
      { key := "Tab", shiftKey := false } (some 6)).2.1 (by decide) rfl rfl rfl⟩

/-! ### Konami code -/

theorem string_append_cancel (p x y q : String) (h : p ++ x ++ q = p ++ y ++ q) : x = y := by
  have hd := congrArg String.data h
  simp only [String.data_append] at hd
  exact String.ext (List.append_cancel_left (List.append_cancel_right hd))

theorem joinComma_cons_of_ne_nil (z : String) (m : List String) (hm : m ≠ []) :
    joinComma (z :: m) = z ++ "," ++ joinComma m := by
  cases m with
  | nil => exact absurd rfl hm
  | cons y r => rfl

theorem joinComma_split (l1 l2 : List String) :
    ∃ pre post : String, ∀ x, joinComma (l1 ++ x :: l2) = pre ++ x ++ post := by
  induction l1 with
  | nil =>
    cases l2 with
    | nil =>
      refine ⟨"", "", fun x => ?_⟩
      apply String.ext
      simp [joinComma, String.data_append]
    | cons y r =>
      refine ⟨"", "," ++ joinComma (y :: r), fun x => ?_⟩
      apply String.ext
      simp [joinComma, String.data_append]
  | cons z l1 ih =>
    obtain ⟨pre, post, hpp⟩ := ih
    refine ⟨z ++ "," ++ pre, post, fun x => ?_⟩
    have hne : l1 ++ x :: l2 ≠ [] := by simp
    rw [List.cons_append, joinComma_cons_of_ne_nil z _ hne, hpp x]
    apply String.ext
    simp [String.data_append]

theorem joinComma_inj_at (l1 l2 : List String) (x y : String)
    (h : joinComma (l1 ++ x :: l2) = joinComma (l1 ++ y :: l2)) : x = y := by
  obtain ⟨pre, post, hpp⟩ := joinComma_split l1 l2
  rw [hpp x, hpp y] at h
  exact string_append_cancel pre x y post h

theorem sliceLast_sliceLast_append (n : Nat) (l m : List String) :
    sliceLast n (sliceLast n l ++ m) = sliceLast n (l ++ m) := by
  unfold sliceLast
  by_cases h : l.length ≤ n
  · have h0 : l.length - n = 0 := by omega
    simp [h0]
  · have hlen : (List.drop (l.length - n) l).length = n := by
      rw [List.length_drop]; omega
    have hle : l.length - n ≤ l.length := by omega
    have e1 : (List.drop (l.length - n) l ++ m).length - n = m.length := by
      rw [List.length_append, hlen]; omega
    have e2 : (l ++ m).length - n = (l.length - n) + m.length := by
      rw [List.length_append]; omega
    rw [e1, e2, ← List.drop_drop, List.drop_append_of_le_length hle]

theorem konamiFeed_append_singleton (buf ks : List String) (k : String) :
    konamiFeed buf (ks ++ [k]) = konamiKeydown (konamiFeed buf ks).1 k := by
  simp [konamiFeed, List.foldl_append]

theorem konamiFeed_buffer (buf ks : List String) (hks : ks ≠ []) :
    (konamiFeed buf ks).1 = sliceLast konamiPattern.length (buf ++ ks.map normalizeKey) := by
  induction ks using List.reverseRecOn with
  | nil => exact absurd rfl hks
  | append_singleton init k ih =>
    rw [konamiFeed_append_singleton]
    by_cases hinit : init = []
    · subst hinit
      simp [konamiKeydown, konamiFeed]
    · have := ih hinit
      simp only [konamiKeydown, this, List.map_append, List.map_cons, List.map_nil]
      rw [sliceLast_sliceLast_append, List.append_assoc]

theorem konamiFeed_flag (buf ks : List String) (hks : ks ≠ []) :
    (konamiFeed buf ks).2 =
      decide (joinComma (konamiFeed buf ks).1 = joinComma konamiPattern) := by
  induction ks using List.reverseRecOn with
  | nil => exact absurd rfl hks
  | append_singleton init k _ =>
    rw [konamiFeed_append_singleton]
    rfl

theorem konamiFeed_ten (buf ks : List String) (hlen : ks.length = konamiPattern.length) :
    konamiFeed buf ks =
      (ks.map normalizeKey, decide (joinComma (ks.map normalizeKey) = joinComma konamiPattern)) := by
  have hks : ks ≠ [] := by
    intro h
    rw [h] at hlen
    exact absurd hlen (by decide)
  have hbuf : (konamiFeed buf ks).1 = ks.map normalizeKey := by
    rw [konamiFeed_buffer buf ks hks]
    unfold sliceLast
    have : (buf ++ ks.map normalizeKey).length - konamiPattern.length = buf.length := by
      rw [List.length_append, List.length_map, hlen]; omega
    rw [this, List.drop_append_of_le_length (le_refl _)]
    simp
  have hflag := konamiFeed_flag buf ks hks
  rw [hbuf] at hflag
  exact Prod.ext hbuf hflag

theorem map_normalizeKey_konamiPattern : konamiPattern.map normalizeKey = konamiPattern := by
  decide

/-- C6 as stated fails: the sequence with `b` at position 8 replaced by the
different key value `B` still triggers the speed boost on the tenth key,
because single-character keys are lowercased before the comparison. -/
theorem konami_uppercase_substitution_triggers :
    some "B" ≠ konamiPattern[8]? ∧ (konamiFeed [] (konamiPattern.set 8 "B")).2 = true := by
  decide

/-- C6, amended: from every prior buffer, the exact ten-key sequence triggers
the speed boost on the tenth key; and the sequence with position `i < 10`
replaced by a key `k` triggers it on the tenth key if and only if the
normalised form of `k` (lowercased when it is a single character) equals the
key of the pattern at position `i`. -/
theorem konamiFeed_spec (konamiCode : List String) :
    konamiFeed konamiCode konamiPattern = (konamiPattern, true) ∧
      ∀ (i : Nat) (k : String), i < konamiPattern.length →
        ((konamiFeed konamiCode (konamiPattern.set i k)).2 = true ↔
          some (normalizeKey k) = konamiPattern[i]?) := by
  constructor
  · rw [konamiFeed_ten konamiCode konamiPattern rfl, map_normalizeKey_konamiPattern]
    simp
  · intro i k hi
    rw [konamiFeed_ten konamiCode _ (by simp)]
    simp only [decide_eq_true_eq]
    have hset : (konamiPattern.set i k).map normalizeKey =
        konamiPattern.take i ++ normalizeKey k :: konamiPattern.drop (i + 1) := by
      rw [List.map_set, map_normalizeKey_konamiPattern, List.set_eq_take_append_cons_drop,
        if_pos hi]
    have hpat : konamiPattern =
        konamiPattern.take i ++ konamiPattern[i] :: konamiPattern.drop (i + 1) := by
      conv_lhs => rw [← List.take_append_drop i konamiPattern, List.drop_eq_getElem_cons hi]
    rw [hset, List.getElem?_eq_getElem hi]
    constructor
    · intro h
      have hj : joinComma konamiPattern =
          joinComma (konamiPattern.take i ++ konamiPattern[i] :: konamiPattern.drop (i + 1)) :=
        congrArg joinComma hpat
      exact congrArg some (joinComma_inj_at _ _ _ _ (h.trans hj))
    · intro h
      have h2 : normalizeKey k = konamiPattern[i] := Option.some.inj h
      rw [h2, ← hpat]

/-- Witness of `konamiFeed_spec`: with `x` in place of `b` the boost is not
triggered, whatever the buffer held before. -/
theorem konamiFeed_spec_witness :
    8 < konamiPattern.length ∧ ¬ (konamiFeed ["a"] (konamiPattern.set 8 "x")).2 = true :=
  ⟨by decide, fun h =>
    absurd (((konamiFeed_spec ["a"]).2 8 "x" (by decide)).1 h) (by decide)⟩

/-! ### Debounce -/

theorem foldl_later_state {σ α : Type} (func : α → σ → σ) (ts : List (DebounceTimer α))
    (d : Debounced σ α) :
    ((ts.foldl (later func true) d).state = d.state) ∧
      ((ts.foldl (later func true) d).timers = d.timers) ∧
      ((ts.foldl (later func true) d).now = d.now) ∧
      ((ts.foldl (later func true) d).nextHandle = d.nextHandle) ∧
      ((ts.foldl (later func true) d).timeout = if ts.isEmpty then d.timeout else none) := by
  induction ts generalizing d with
  | nil => simp
  | cons t ts ih =>
    obtain ⟨h1, h2, h3, h4, h5⟩ := ih (later func true d t)
    simp only [List.foldl_cons]
    refine ⟨h1, h2, h3, h4, ?_⟩
    rw [h5]
    cases ts <;> simp [later]

/-- With `immediate` set, the timer callback never invokes `func`. -/
theorem debounceAdvance_state {σ α : Type} (func : α → σ → σ) (now : Nat) (d : Debounced σ α) :
    (debounceAdvance func true now d).state = d.state := by
  unfold debounceAdvance
  exact (foldl_later_state func _ _).1

theorem debounceStep_shape {σ α : Type} (func : α → σ → σ) (wait : Nat) (d : Debounced σ α)
    (gap : Nat) (a : α)
    (hinv : (d.timers = [] ∧ d.timeout = none) ∨
      ∃ h b, 1 ≤ h ∧ d.timeout = some h ∧
        d.timers = [{ handle := h, due := d.now + wait, args := b }])
    (hnext : 1 ≤ d.nextHandle) :
    ((debounceAdvance func true (d.now + gap) d).timers = [] ↔ (d.timers = [] ∨ wait ≤ gap)) ∧
      (debounceStep func wait true d (gap, a)).state =
        (if (debounceAdvance func true (d.now + gap) d).timers.isEmpty then func a d.state
          else d.state) ∧
      (debounceStep func wait true d (gap, a)).now = d.now + gap ∧
      (debounceStep func wait true d (gap, a)).timeout = some d.nextHandle ∧
      (debounceStep func wait true d (gap, a)).timers =
        [{ handle := d.nextHandle, due := d.now + gap + wait, args := a }] ∧
      (debounceStep func wait true d (gap, a)).nextHandle = d.nextHandle + 1 := by
  obtain ⟨now, st, timeout, timers, nextHandle⟩ := d
  simp only at hinv hnext ⊢
  rcases hinv with ⟨ht, hto⟩ | ⟨h, b, hh, hto, ht⟩
  · subst ht hto
    simp [debounceStep, debounceAdvance, debouncedCall, timeoutFalsy, clearTimeout]
  · subst ht hto
    obtain ⟨h', rfl⟩ : ∃ h', h = h' + 1 := ⟨h - 1, by omega⟩
    by_cases hg : wait ≤ gap
    · have hdue : now + wait ≤ now + gap := by omega
      simp [debounceStep, debounceAdvance, debouncedCall, timeoutFalsy, clearTimeout, later,
        hg, hdue]
    · have hdue : ¬ now + wait ≤ now + gap := by omega
      simp [debounceStep, debounceAdvance, debouncedCall, timeoutFalsy, clearTimeout,
        hg, hdue]

theorem debounceRun_append_singleton {σ α : Type} (func : α → σ → σ) (wait : Nat)
    (d : Debounced σ α) (evs : List (Nat × α)) (ev : Nat × α) :
    debounceRun func wait true d (evs ++ [ev]) =
      debounceStep func wait true (debounceRun func wait true d evs) ev := by
  simp [debounceRun, List.foldl_append]

theorem debounceRun_inv {σ α : Type} (func : α → σ → σ) (wait : Nat) (s : σ)
    (evs : List (Nat × α)) :
    1 ≤ (debounceRun func wait true (debounceInit s) evs).nextHandle ∧
      ((evs = [] ∧ (debounceRun func wait true (debounceInit s) evs).timers = [] ∧
          (debounceRun func wait true (debounceInit s) evs).timeout = none) ∨
        (evs ≠ [] ∧ ∃ h b, 1 ≤ h ∧
          (debounceRun func wait true (debounceInit s) evs).timeout = some h ∧
          (debounceRun func wait true (debounceInit s) evs).timers =
            [{ handle := h
               due := (debounceRun func wait true (debounceInit s) evs).now + wait
               args := b }])) := by
  induction evs using List.reverseRecOn with
  | nil => simp [debounceRun, debounceInit]
  | append_singleton init ev ih =>
    obtain ⟨hnext, hshape⟩ := ih
    have hinv : ((debounceRun func wait true (debounceInit s) init).timers = [] ∧
          (debounceRun func wait true (debounceInit s) init).timeout = none) ∨
        ∃ h b, 1 ≤ h ∧ (debounceRun func wait true (debounceInit s) init).timeout = some h ∧
          (debounceRun func wait true (debounceInit s) init).timers =
            [{ handle := h
               due := (debounceRun func wait true (debounceInit s) init).now + wait
               args := b }] := by
      rcases hshape with ⟨_, h1, h2⟩ | ⟨_, h⟩
      · exact Or.inl ⟨h1, h2⟩
      · exact Or.inr h
    obtain ⟨_, _, hnow, hto, hts, hnh⟩ :=
      debounceStep_shape func wait _ ev.1 ev.2 hinv hnext
    rw [debounceRun_append_singleton]
    refine ⟨by rw [hnh]; omega, Or.inr ⟨by simp, _, ev.2, hnext, hto, ?_⟩⟩
    rw [hts, hnow]

/-- A burst after a call: no call that comes less than `wait` after the
previous one invokes `func`. -/
theorem debounceRun_burst {σ α : Type} (func : α → σ → σ) (wait : Nat)
    (rest : List (Nat × α)) (hrest : ∀ e ∈ rest, e.1 < wait) (d : Debounced σ α)
    (hnext : 1 ≤ d.nextHandle)
    (hpend : ∃ h b, 1 ≤ h ∧ d.timeout = some h ∧
      d.timers = [{ handle := h, due := d.now + wait, args := b }]) :
    (debounceRun func wait true d rest).state = d.state := by
  induction rest generalizing d with
  | nil => rfl
  | cons ev rest ih =>
    have hev : ev.1 < wait := hrest ev (List.mem_cons_self _ _)
    obtain ⟨hiff, hstate, hnow, hto, hts, hnh⟩ :=
      debounceStep_shape func wait d ev.1 ev.2 (Or.inr hpend) hnext
    have hne : (debounceAdvance func true (d.now + ev.1) d).timers ≠ [] := by
      intro h0
      rcases hiff.1 h0 with h1 | h1
      · obtain ⟨h, b, _, _, ht⟩ := hpend
        rw [ht] at h1
        exact List.cons_ne_nil _ _ h1
      · omega
    have hstate2 : (debounceStep func wait true d ev).state = d.state := by
      rw [show ev = (ev.1, ev.2) from rfl, hstate]
      simp [hne]
    have hgoal : debounceRun func wait true d (ev :: rest) =
        debounceRun func wait true (debounceStep func wait true d ev) rest := rfl
    rw [hgoal, ih (fun e he => hrest e (List.mem_cons_of_mem _ he)) _
      (by rw [show ev = (ev.1, ev.2) from rfl, hnh]; omega)
      ⟨_, ev.2, hnext, by rw [show ev = (ev.1, ev.2) from rfl, hto], by
        rw [show ev = (ev.1, ev.2) from rfl, hts, hnow]⟩]
    exact hstate2

/-- C10: for the wrapper `debounce(f, w, true)` with `w > 0`, after any timed
sequence of calls `evs`, a further call `gap` milliseconds later with receiver
and arguments `a`: the timer callback has not invoked `f`; a timer is pending
at the call unless it is the first call or `w ≤ gap`; `f` is invoked on the
call, with `a`, if and only if no timer is pending; the call leaves exactly
one timer, due `w` after the call; and a burst of further calls, each less
than `w` after the previous one, does not invoke `f` again. -/
theorem debounce_immediate_spec {σ α : Type} (func : α → σ → σ) (wait : Nat)
    (_hw : 0 < wait) (s : σ) (evs : List (Nat × α)) (gap : Nat) (a : α) :
    (debounceAdvance func true
        ((debounceRun func wait true (debounceInit s) evs).now + gap)
        (debounceRun func wait true (debounceInit s) evs)).state =
      (debounceRun func wait true (debounceInit s) evs).state ∧
    ((debounceAdvance func true
        ((debounceRun func wait true (debounceInit s) evs).now + gap)
        (debounceRun func wait true (debounceInit s) evs)).timers = [] ↔
      (evs = [] ∨ wait ≤ gap)) ∧
    (debounceStep func wait true (debounceRun func wait true (debounceInit s) evs)
        (gap, a)).state =
      (if (debounceAdvance func true
          ((debounceRun func wait true (debounceInit s) evs).now + gap)
          (debounceRun func wait true (debounceInit s) evs)).timers.isEmpty
        then func a (debounceRun func wait true (debounceInit s) evs).state
        else (debounceRun func wait true (debounceInit s) evs).state) ∧
    (∃ h, (debounceStep func wait true (debounceRun func wait true (debounceInit s) evs)
        (gap, a)).timeout = some h ∧
      (debounceStep func wait true (debounceRun func wait true (debounceInit s) evs)
        (gap, a)).timers =
        [{ handle := h
           due := (debounceRun func wait true (debounceInit s) evs).now + gap + wait
           args := a }]) ∧
    (∀ rest : List (Nat × α), (evs = [] ∨ wait ≤ gap) → (∀ e ∈ rest, e.1 < wait) →
      (debounceRun func wait true (debounceInit s) (evs ++ (gap, a) :: rest)).state =
        func a (debounceRun func wait true (debounceInit s) evs).state) := by
  obtain ⟨hnext, hshape⟩ := debounceRun_inv func wait s evs
  have hinv : ((debounceRun func wait true (debounceInit s) evs).timers = [] ∧
        (debounceRun func wait true (debounceInit s) evs).timeout = none) ∨
      ∃ h b, 1 ≤ h ∧ (debounceRun func wait true (debounceInit s) evs).timeout = some h ∧
        (debounceRun func wait true (debounceInit s) evs).timers =
          [{ handle := h
             due := (debounceRun func wait true (debounceInit s) evs).now + wait
             args := b }] := by
    rcases hshape with ⟨_, h1, h2⟩ | ⟨_, h⟩
    · exact Or.inl ⟨h1, h2⟩
    · exact Or.inr h
  have htimers : (debounceRun func wait true (debounceInit s) evs).timers = [] ↔ evs = [] := by
    rcases hshape with ⟨h0, h1, _⟩ | ⟨h0, _, _, _, _, h1⟩
    · exact ⟨fun _ => h0, fun _ => h1⟩
    · exact ⟨fun h => by rw [h1] at h; exact absurd h (List.cons_ne_nil _ _),
        fun h => absurd h h0⟩
  obtain ⟨hiff, hstate, hnow, hto, hts, hnh⟩ :=
    debounceStep_shape func wait _ gap a hinv hnext
  refine ⟨debounceAdvance_state func _ _, ?_, hstate, ⟨_, hto, hts⟩, ?_⟩
  · rw [hiff, htimers]
  · intro rest hfirst hrest
    have hsplit : debounceRun func wait true (debounceInit s) (evs ++ (gap, a) :: rest) =
        debounceRun func wait true
          (debounceStep func wait true (debounceRun func wait true (debounceInit s) evs)
            (gap, a)) rest := by
      simp [debounceRun, List.foldl_append]
    rw [hsplit, debounceRun_burst func wait rest hrest _ (by rw [hnh]; omega)
      ⟨_, a, hnext, hto, by rw [hts, hnow]⟩, hstate]
    have hidle : (debounceAdvance func true
        ((debounceRun func wait true (debounceInit s) evs).now + gap)
        (debounceRun func wait true (debounceInit s) evs)).timers = [] :=
      hiff.2 (by rcases hfirst with h | h
                 · exact Or.inl (htimers.2 h)
                 · exact Or.inr h)
    simp [hidle]

/-- Witness of `debounce_immediate_spec`: a counter behind a wrapper with
`wait = 10`, called three times within 7 ms, is incremented once. -/
theorem debounce_immediate_spec_witness :
    0 < 10 ∧
      (debounceRun (fun (_ : String) (n : Nat) => n + 1) 10 true (debounceInit 0)
        ([] ++ (0, "a") :: [(3, "b"), (4, "c")])).state =
        (fun (_ : String) (n : Nat) => n + 1) "a"
          (debounceRun (fun (_ : String) (n : Nat) => n + 1) 10 true (debounceInit 0) []).state :=
  ⟨by decide,
    (debounce_immediate_spec (fun (_ : String) (n : Nat) => n + 1) 10 (by decide) 0 [] 0
      "a").2.2.2.2 [(3, "b"), (4, "c")] (Or.inl rfl) (by decide)⟩

/-! ### The scroll listeners of the highlighter -/

/-- Every scroll event executes `highlightNavigation` at least once, however
close it comes to the previous one. -/
theorem scrollEvent_highlightRuns (sections : List PageSection)
    (d : Debounced ScrollPage Unit) (ev : Nat × Int) :
    d.state.highlightRuns + 1 ≤ (scrollEvent sections d ev).state.highlightRuns := by
  have hadv := debounceAdvance_state (fun _ => runHighlight sections) (d.now + ev.1) d
  simp only [scrollEvent, debouncedCall]
  split
  · simp [runHighlight, hadv]
  · simp [runHighlight, hadv]

/-- C9 on a burst of two scroll events 5 ms apart: the first event executes
`highlightNavigation` twice and the second event executes it once more. -/
theorem scrollRun_burst_runs :
    (scrollRun [{ offsetTop := 0, offsetHeight := 600, id := "home" }]
        [{ href := some "#home", classList := ["nav-link"] }] [(0, 120)]).state.highlightRuns
        = 2 ∧
      (scrollRun [{ offsetTop := 0, offsetHeight := 600, id := "home" }]
        [{ href := some "#home", classList := ["nav-link"] }]
        [(0, 120), (5, 130)]).state.highlightRuns = 3 := by
  decide

end StarlinkDIY
